import Mathlib

/-
Verification of the type-checking and evaluation core of the hubris
dependently-typed language (src/src/hubris/typeck/mod.rs).

The term algebra (`Name`, `Term` and their substitution primitives) lives in
the `core` crate, which is not part of the sources under review; those
definitions are modelled from the specification (spec.md §3, §4.A, §4.B) and
are marked `Modelled from the spec:` in their doc comments.  Everything in
`TyCtxt` and `LocalCx` (environment operations, `eval`, `def_eq`, the
bidirectional checker) is translated directly from `typeck/mod.rs`.

Modelling conventions:
* Source spans are carried on terms only for diagnostics and never influence
  equality or reduction (spec §3 invariant 4), so the embedding omits them.
* Rust `panic!` sites are modelled by the `TcResult.panic` result.
* `eval` and the checker are partial in the source (a non-normalizing
  definition loops); the embedding adds an explicit fuel parameter and the
  `TcResult.fuelOut` result.  Every recursive call decreases fuel by one.
* The fresh-local counter is interior-mutable (`RefCell`) in the source; the
  spec (§9) explicitly allows threading it explicitly through checking, which
  is what the embedding does.
* Hash maps are modelled as association lists; `mapInsert` mirrors
  `HashMap::insert`, returning the previous value at the key, if any.
-/

namespace Hubris

/-- Literal payloads of `Term::Literal` (spec §3). -/
inductive Literal where
  | int (value : Int)
  | unit
  deriving DecidableEq

mutual
/-- Modelled from the spec: `Name` (spec §3) from the `core` crate, which is
not under the sources reviewed here.  Four variants: qualified globals,
DeBruijn bound occurrences (zero-based, carrying a printable hint), checking
locals (unique numeric tag, ascribed type, hint), and metavariables. -/
inductive Name where
  | qual (components : List String)
  | deBruijn (index : Nat) (repr : String)
  | lcl (number : Nat) (ty : Term) (repr : String)
  | meta (idx : Nat)

/-- Modelled from the spec: `Term` (spec §3) from the `core` crate.  Source
spans are omitted (they never participate in equality or reduction).
`recursor` is the saturated recursor application: datatype name, offset
separating motive+minor premises from indices+scrutinee, and the argument
vector whose last element is the scrutinee. -/
inductive Term where
  | var (name : Name)
  | app (fn : Term) (arg : Term)
  | lam (binder : Name) (ty : Term) (body : Term)
  | pi (binder : Name) (ty : Term) (body : Term)
  | type
  | lit (l : Literal)
  | recursor (dataName : Name) (offset : Nat) (args : List Term)
end

mutual
/-- Structural decidable equality on `Name` (spec §3: "Equality on `Name` is
structural; the numeric tag makes `Local` unique"). -/
def nameDecEq : (a b : Name) → Decidable (a = b)
  | .qual x0, .qual y0 =>
    if h0 : x0 = y0 then
      isTrue (by subst h0; rfl)
    else isFalse (by intro hh; injection hh; repeat contradiction)
  | .deBruijn x0 x1, .deBruijn y0 y1 =>
    if h0 : x0 = y0 then
      if h1 : x1 = y1 then
        isTrue (by subst h0; subst h1; rfl)
      else isFalse (by intro hh; injection hh; repeat contradiction)
    else isFalse (by intro hh; injection hh; repeat contradiction)
  | .lcl x0 x1 x2, .lcl y0 y1 y2 =>
    if h0 : x0 = y0 then
      match termDecEq x1 y1 with
      | isTrue h1 =>
          if h2 : x2 = y2 then
            isTrue (by subst h0; subst h1; subst h2; rfl)
          else isFalse (by intro hh; injection hh; repeat contradiction)
      | isFalse h1 => isFalse (by intro hh; injection hh; repeat contradiction)
    else isFalse (by intro hh; injection hh; repeat contradiction)
  | .meta x0, .meta y0 =>
    if h0 : x0 = y0 then
      isTrue (by subst h0; rfl)
    else isFalse (by intro hh; injection hh; repeat contradiction)
  | .qual _, .deBruijn _ _ => isFalse (fun h => Name.noConfusion h)
  | .qual _, .lcl _ _ _ => isFalse (fun h => Name.noConfusion h)
  | .qual _, .meta _ => isFalse (fun h => Name.noConfusion h)
  | .deBruijn _ _, .qual _ => isFalse (fun h => Name.noConfusion h)
  | .deBruijn _ _, .lcl _ _ _ => isFalse (fun h => Name.noConfusion h)
  | .deBruijn _ _, .meta _ => isFalse (fun h => Name.noConfusion h)
  | .lcl _ _ _, .qual _ => isFalse (fun h => Name.noConfusion h)
  | .lcl _ _ _, .deBruijn _ _ => isFalse (fun h => Name.noConfusion h)
  | .lcl _ _ _, .meta _ => isFalse (fun h => Name.noConfusion h)
  | .meta _, .qual _ => isFalse (fun h => Name.noConfusion h)
  | .meta _, .deBruijn _ _ => isFalse (fun h => Name.noConfusion h)
  | .meta _, .lcl _ _ _ => isFalse (fun h => Name.noConfusion h)

/-- Structural decidable equality on `Term`. -/
def termDecEq : (a b : Term) → Decidable (a = b)
  | .var x0, .var y0 =>
    match nameDecEq x0 y0 with
    | isTrue h0 =>
        isTrue (by subst h0; rfl)
    | isFalse h0 => isFalse (by intro hh; injection hh; repeat contradiction)
  | .app x0 x1, .app y0 y1 =>
    match termDecEq x0 y0 with
    | isTrue h0 =>
        match termDecEq x1 y1 with
        | isTrue h1 =>
            isTrue (by subst h0; subst h1; rfl)
        | isFalse h1 => isFalse (by intro hh; injection hh; repeat contradiction)
    | isFalse h0 => isFalse (by intro hh; injection hh; repeat contradiction)
  | .lam x0 x1 x2, .lam y0 y1 y2 =>
    match nameDecEq x0 y0 with
    | isTrue h0 =>
        match termDecEq x1 y1 with
        | isTrue h1 =>
            match termDecEq x2 y2 with
            | isTrue h2 =>
                isTrue (by subst h0; subst h1; subst h2; rfl)
            | isFalse h2 => isFalse (by intro hh; injection hh; repeat contradiction)
        | isFalse h1 => isFalse (by intro hh; injection hh; repeat contradiction)
    | isFalse h0 => isFalse (by intro hh; injection hh; repeat contradiction)
  | .pi x0 x1 x2, .pi y0 y1 y2 =>
    match nameDecEq x0 y0 with
    | isTrue h0 =>
        match termDecEq x1 y1 with
        | isTrue h1 =>
            match termDecEq x2 y2 with
            | isTrue h2 =>
                isTrue (by subst h0; subst h1; subst h2; rfl)
            | isFalse h2 => isFalse (by intro hh; injection hh; repeat contradiction)
        | isFalse h1 => isFalse (by intro hh; injection hh; repeat contradiction)
    | isFalse h0 => isFalse (by intro hh; injection hh; repeat contradiction)
  | .type, .type =>
    isTrue rfl
  | .lit x0, .lit y0 =>
    if h0 : x0 = y0 then
      isTrue (by subst h0; rfl)
    else isFalse (by intro hh; injection hh; repeat contradiction)
  | .recursor x0 x1 x2, .recursor y0 y1 y2 =>
    match nameDecEq x0 y0 with
    | isTrue h0 =>
        if h1 : x1 = y1 then
          match termListDecEq x2 y2 with
          | isTrue h2 =>
              isTrue (by subst h0; subst h1; subst h2; rfl)
          | isFalse h2 => isFalse (by intro hh; injection hh; repeat contradiction)
        else isFalse (by intro hh; injection hh; repeat contradiction)
    | isFalse h0 => isFalse (by intro hh; injection hh; repeat contradiction)
  | .var _, .app _ _ => isFalse (fun h => Term.noConfusion h)
  | .var _, .lam _ _ _ => isFalse (fun h => Term.noConfusion h)
  | .var _, .pi _ _ _ => isFalse (fun h => Term.noConfusion h)
  | .var _, .type => isFalse (fun h => Term.noConfusion h)
  | .var _, .lit _ => isFalse (fun h => Term.noConfusion h)
  | .var _, .recursor _ _ _ => isFalse (fun h => Term.noConfusion h)
  | .app _ _, .var _ => isFalse (fun h => Term.noConfusion h)
  | .app _ _, .lam _ _ _ => isFalse (fun h => Term.noConfusion h)
  | .app _ _, .pi _ _ _ => isFalse (fun h => Term.noConfusion h)
  | .app _ _, .type => isFalse (fun h => Term.noConfusion h)
  | .app _ _, .lit _ => isFalse (fun h => Term.noConfusion h)
  | .app _ _, .recursor _ _ _ => isFalse (fun h => Term.noConfusion h)
  | .lam _ _ _, .var _ => isFalse (fun h => Term.noConfusion h)
  | .lam _ _ _, .app _ _ => isFalse (fun h => Term.noConfusion h)
  | .lam _ _ _, .pi _ _ _ => isFalse (fun h => Term.noConfusion h)
  | .lam _ _ _, .type => isFalse (fun h => Term.noConfusion h)
  | .lam _ _ _, .lit _ => isFalse (fun h => Term.noConfusion h)
  | .lam _ _ _, .recursor _ _ _ => isFalse (fun h => Term.noConfusion h)
  | .pi _ _ _, .var _ => isFalse (fun h => Term.noConfusion h)
  | .pi _ _ _, .app _ _ => isFalse (fun h => Term.noConfusion h)
  | .pi _ _ _, .lam _ _ _ => isFalse (fun h => Term.noConfusion h)
  | .pi _ _ _, .type => isFalse (fun h => Term.noConfusion h)
  | .pi _ _ _, .lit _ => isFalse (fun h => Term.noConfusion h)
  | .pi _ _ _, .recursor _ _ _ => isFalse (fun h => Term.noConfusion h)
  | .type, .var _ => isFalse (fun h => Term.noConfusion h)
  | .type, .app _ _ => isFalse (fun h => Term.noConfusion h)
  | .type, .lam _ _ _ => isFalse (fun h => Term.noConfusion h)
  | .type, .pi _ _ _ => isFalse (fun h => Term.noConfusion h)
  | .type, .lit _ => isFalse (fun h => Term.noConfusion h)
  | .type, .recursor _ _ _ => isFalse (fun h => Term.noConfusion h)
  | .lit _, .var _ => isFalse (fun h => Term.noConfusion h)
  | .lit _, .app _ _ => isFalse (fun h => Term.noConfusion h)
  | .lit _, .lam _ _ _ => isFalse (fun h => Term.noConfusion h)
  | .lit _, .pi _ _ _ => isFalse (fun h => Term.noConfusion h)
  | .lit _, .type => isFalse (fun h => Term.noConfusion h)
  | .lit _, .recursor _ _ _ => isFalse (fun h => Term.noConfusion h)
  | .recursor _ _ _, .var _ => isFalse (fun h => Term.noConfusion h)
  | .recursor _ _ _, .app _ _ => isFalse (fun h => Term.noConfusion h)
  | .recursor _ _ _, .lam _ _ _ => isFalse (fun h => Term.noConfusion h)
  | .recursor _ _ _, .pi _ _ _ => isFalse (fun h => Term.noConfusion h)
  | .recursor _ _ _, .type => isFalse (fun h => Term.noConfusion h)
  | .recursor _ _ _, .lit _ => isFalse (fun h => Term.noConfusion h)

/-- Structural decidable equality on lists of terms. -/
def termListDecEq : (a b : List Term) → Decidable (a = b)
  | [], [] => isTrue rfl
  | [], _ :: _ => isFalse (fun h => List.noConfusion h)
  | _ :: _, [] => isFalse (fun h => List.noConfusion h)
  | x :: xs, y :: ys =>
    match termDecEq x y with
    | isTrue h0 =>
      match termListDecEq xs ys with
      | isTrue h1 => isTrue (by subst h0; subst h1; rfl)
      | isFalse h1 => isFalse (by intro hh; injection hh; repeat contradiction)
    | isFalse h0 => isFalse (by intro hh; injection hh; repeat contradiction)
end

instance : DecidableEq Name := nameDecEq
instance : DecidableEq Term := termDecEq

/-- `Name::to_term`: a name used as a term (spec §4.A). -/
def Name.to_term (n : Name) : Term := .var n

mutual
/-- Modelled from the spec: the worker of `Term::instantiate` (spec §4.B, in
the `core` crate).  At binder depth `d`, a DeBruijn occurrence of index `d`
is replaced by `v` with its free indices shifted by `d`, deeper indices are
decremented, and shallower indices are left alone. -/
def instAux (v : Term) (d : Nat) : Term → Term
  | .var (.deBruijn i r) =>
    if i = d then shiftAux d 0 v
    else if d < i then .var (.deBruijn (i - 1) r)
    else .var (.deBruijn i r)
  | .var n => .var n
  | .app f a => .app (instAux v d f) (instAux v d a)
  | .lam n ty b => .lam n (instAux v d ty) (instAux v (d + 1) b)
  | .pi n ty b => .pi n (instAux v d ty) (instAux v (d + 1) b)
  | .type => .type
  | .lit l => .lit l
  | .recursor n o ts => .recursor n o (instListAux v d ts)

/-- Pointwise `instAux` on recursor argument vectors. -/
def instListAux (v : Term) (d : Nat) : List Term → List Term
  | [] => []
  | t :: ts => instAux v d t :: instListAux v d ts

/-- Modelled from the spec: shifting of free DeBruijn indices, used when an
instantiated value is pushed under binders (spec §4.B).  Adds `amount` to
every index at or above the cutoff `c`. -/
def shiftAux (amount : Nat) (c : Nat) : Term → Term
  | .var (.deBruijn i r) =>
    if c ≤ i then .var (.deBruijn (i + amount) r) else .var (.deBruijn i r)
  | .var n => .var n
  | .app f a => .app (shiftAux amount c f) (shiftAux amount c a)
  | .lam n ty b => .lam n (shiftAux amount c ty) (shiftAux amount (c + 1) b)
  | .pi n ty b => .pi n (shiftAux amount c ty) (shiftAux amount (c + 1) b)
  | .type => .type
  | .lit l => .lit l
  | .recursor n o ts => .recursor n o (shiftListAux amount c ts)

/-- Pointwise `shiftAux` on recursor argument vectors. -/
def shiftListAux (amount : Nat) (c : Nat) : List Term → List Term
  | [] => []
  | t :: ts => shiftAux amount c t :: shiftListAux amount c ts
end

/-- Modelled from the spec: `Term::instantiate` (spec §4.B) — replaces
DeBruijn index 0 in `t` with `v`, decrementing deeper indices. -/
def Term.instantiate (t v : Term) : Term := instAux v 0 t

mutual
/-- Modelled from the spec: the worker of `Term::abstr` (spec §4.B).  Every
occurrence of the local with tag `tag` is replaced by a DeBruijn variable at
the current depth `d`, inheriting the local's printable hint. -/
def abstrAux (tag : Nat) (d : Nat) : Term → Term
  | .var (.lcl num ty r) =>
    if num = tag then .var (.deBruijn d r) else .var (.lcl num ty r)
  | .var n => .var n
  | .app f a => .app (abstrAux tag d f) (abstrAux tag d a)
  | .lam n ty b => .lam n (abstrAux tag d ty) (abstrAux tag (d + 1) b)
  | .pi n ty b => .pi n (abstrAux tag d ty) (abstrAux tag (d + 1) b)
  | .type => .type
  | .lit l => .lit l
  | .recursor n o ts => .recursor n o (abstrListAux tag d ts)

/-- Pointwise `abstrAux` on recursor argument vectors. -/
def abstrListAux (tag : Nat) (d : Nat) : List Term → List Term
  | [] => []
  | t :: ts => abstrAux tag d t :: abstrListAux tag d ts
end

/-- Modelled from the spec: `Term::abstr` (spec §4.B) — replaces occurrences
of the local `l` (matched by its unique numeric tag) with a fresh DeBruijn
variable at the current depth.  Names other than locals have no occurrences
to replace. -/
def Term.abstr (t : Term) (l : Name) : Term :=
  match l with
  | .lcl num _ _ => abstrAux num 0 t
  | _ => t

/-- Modelled from the spec: `Term::head` (spec §4.B) — the head of a curried
application spine; `None` when the term is not a spine over a variable. -/
def Term.head : Term → Option Term
  | .app f _ => f.head
  | .var n => some (.var n)
  | _ => none

/-- Spine arguments of a curried application, in application order. -/
def Term.spine : Term → List Term
  | .app f a => f.spine ++ [a]
  | _ => []

/-- Modelled from the spec: `Term::args` (spec §4.B) — the spine arguments of
an application chain; `None` on a bare (nullary-constructor) head. -/
def Term.args : Term → Option (List Term)
  | .app f a => some (Term.spine (.app f a))
  | _ => none

/-- `Term::apply_all` (spec §4.B): left-fold of applications. -/
def Term.apply_all (hd : Term) (as : List Term) : Term := as.foldl .app hd

mutual
/-- Canonicalizes the binder-hint fields of `lam`/`pi` so that the equality
used by the source's `Term: PartialEq` — which ignores spans and binder
hints but not DeBruijn indices (spec §4.B) — becomes structural equality of
the stripped trees. -/
def stripHints : Term → Term
  | .var n => .var n
  | .app f a => .app (stripHints f) (stripHints a)
  | .lam _ ty b => .lam (.deBruijn 0 "") (stripHints ty) (stripHints b)
  | .pi _ ty b => .pi (.deBruijn 0 "") (stripHints ty) (stripHints b)
  | .type => .type
  | .lit l => .lit l
  | .recursor n o ts => .recursor n o (stripHintsList ts)

/-- Pointwise `stripHints` on recursor argument vectors. -/
def stripHintsList : List Term → List Term
  | [] => []
  | t :: ts => stripHints t :: stripHintsList ts
end

/-- The source's `==` on terms (its custom `PartialEq`): structural equality
ignoring spans and binder hints (spec §4.B). -/
def termEqModuloHints (a b : Term) : Bool := decide (stripHints a = stripHints b)

/-- An inductive datatype declaration (spec §3): name, closed top-level type,
and the ordered constructor list. -/
structure Data where
  name : Name
  ty : Term
  ctors : List (Name × Term)
  deriving DecidableEq

/-- A function definition (spec §3): name, declared type, body. -/
structure Function where
  name : Name
  ret_ty : Term
  body : Term
  deriving DecidableEq

/-- The error taxonomy of `typeck/error.rs` as used by `typeck/mod.rs`
(spec §7).  Spans are omitted, as everywhere in this embedding; import and
parse errors belong to out-of-scope collaborators. -/
inductive Error where
  | nameExists (n : Name)
  | unknownVariable (n : Name)
  | noMain
  | defUnequal (lhs : Term) (rhs : Term) (ineqs : List (Term × Term))
  | applicationMismatch (fn : Term) (arg : Term)
  | many (errs : List Error)

/-- Result of an evaluator or checker call.  `ok`/`err` mirror the source's
`Result<Term, Error>`; `panic` marks the source's `panic!` sites; `fuelOut`
is the embedding's explicit step budget running out. -/
inductive TcResult where
  | ok (t : Term)
  | err (e : Error)
  | panic
  | fuelOut

/-- Association-list lookup, mirroring `HashMap::get` with the structural
key equality of `Name`. -/
def mapLookup {β : Type} : List (Name × β) → Name → Option β
  | [], _ => none
  | (k', v) :: rest, k => if k = k' then some v else mapLookup rest k

/-- Association-list insertion, mirroring `HashMap::insert`: stores `v` at
`k` and returns the previous value at `k`, if any. -/
def mapInsert {β : Type} : List (Name × β) → Name → β → Option β × List (Name × β)
  | [], k, v => (none, [(k, v)])
  | (k', v') :: rest, k, v =>
    if k = k' then (some v', (k, v) :: rest)
    else
      let p := mapInsert rest k v
      (p.1, (k', v') :: p.2)

/-- The global type-checking context (`TyCtxt`, typeck/mod.rs lines 22-34):
the four global maps.  The source-map, terminal handle and the
interior-mutable fresh-local counter are omitted: the first two are pure
diagnostics, and the counter is threaded explicitly through the checker as
spec §9 explicitly allows. -/
structure TyCtxt where
  types : List (Name × Data)
  functions : List (Name × Function)
  axioms : List (Name × Term)
  definitions : List (Name × (Term × Term))

/-- `TyCtxt::empty` (typeck/mod.rs line 47), restricted to the four maps. -/
def TyCtxt.empty : TyCtxt := ⟨[], [], [], []⟩

/-- `TyCtxt::unfold_name` (typeck/mod.rs lines 258-275): one δ-step.  A
qualified name resolving in `definitions` unfolds to the stored body (the
`.1` of the pair is the declared type, the `.2` the body); every other name,
including qualified names that are axioms or undefined, is returned as a
term unchanged.  The source returns `Result` but never an error here. -/
def TyCtxt.unfold_name (cx : TyCtxt) (n : Name) : Term :=
  match n with
  | .qual cs =>
    match mapLookup cx.definitions (.qual cs) with
    | none => Name.to_term (.qual cs)
    | some d => d.2
  | n => n.to_term

/-- Outcome of the evaluator's linear search of a datatype's constructor
list (typeck/mod.rs lines 337-364): the matching constructor index, or the
two distinct `panic!` sites — a scrutinee with no head (line 342) and a
scrutinee whose head matches no constructor (line 365). -/
inductive RecFindRes where
  | found (i : Nat)
  | stuck
  | noMatch

/-- The constructor search of `eval`'s recursor case: iterate the
constructor list, panic if the scrutinee has no head, and compare the
constructor name as a term against the head with term equality. -/
def recFind (hOpt : Option Term) : List (Name × Term) → Nat → RecFindRes
  | [], _ => .noMatch
  | (n, _) :: rest, i =>
    match hOpt with
    | none => .stuck
    | some h => if termEqModuloHints n.to_term h then .found i else recFind hOpt rest (i + 1)

/-- `TyCtxt::eval` (typeck/mod.rs lines 287-375) with an explicit fuel
budget.  Call-by-value: an application evaluates the function, then the
argument, then β-reduces if the function is a lambda; `Forall` evaluates
componentwise; a variable takes one δ-step via `unfold_name`; a recursor
evaluates its scrutinee (the last argument), finds the matching constructor,
and ι-reduces — `panic` on a missing datatype declaration, an empty or
out-of-range argument vector, or a stuck scrutinee; lambdas, `Type` and
literals are returned unchanged. -/
def TyCtxt.eval : Nat → TyCtxt → Term → TcResult
  | 0, _, _ => .fuelOut
  | fuel + 1, cx, t =>
    match t with
    | .app fn arg =>
      match TyCtxt.eval fuel cx fn with
      | .ok efun =>
        match TyCtxt.eval fuel cx arg with
        | .ok earg =>
          match efun with
          | .lam _ _ body => TyCtxt.eval fuel cx (body.instantiate earg)
          | f => .ok (.app f earg)
        | r => r
      | r => r
    | .pi nm ty body =>
      match TyCtxt.eval fuel cx ty with
      | .ok ety =>
        match TyCtxt.eval fuel cx body with
        | .ok ebody => .ok (.pi nm ety ebody)
        | r => r
      | r => r
    | .var nm => .ok (cx.unfold_name nm)
    | .recursor tyName offset ts =>
      match mapLookup cx.types tyName with
      | none => .panic
      | some dt =>
        match ts.getLast? with
        | none => .panic
        | some scrTerm =>
          match TyCtxt.eval fuel cx scrTerm with
          | .ok scrutinee =>
            match recFind scrutinee.head dt.ctors 0 with
            | .stuck => .panic
            | .noMatch => .panic
            | .found i =>
              match ts[i + offset]? with
              | none => .panic
              | some premise =>
                match scrutinee.args with
                | none => .ok premise
                | some [] => .panic
                | some (a0 :: rest) =>
                  TyCtxt.eval fuel cx
                    (Term.apply_all premise
                      ((a0 :: rest) ++ [.recursor tyName offset (ts.set (ts.length - 1) a0)]))
          | r => r
    | other => .ok other

/-- `def_eq_modulo` (typeck/mod.rs lines 493-520): lockstep structural
comparison of two normal forms, recursing through applications, Π-types and
lambdas and comparing every other pair of subterms with term equality; a
mismatching leaf pair is appended to the inequalities log.  The `&&` of the
source short-circuits, so a failed left component skips the right one. -/
def def_eq_modulo : Term → Term → List (Term × Term) → Bool × List (Term × Term)
  | .app f1 a1, .app f2 a2, eqs =>
    let r := def_eq_modulo f1 f2 eqs
    if r.1 then def_eq_modulo a1 a2 r.2 else (false, r.2)
  | .pi _ t1 b1, .pi _ t2 b2, eqs =>
    let r := def_eq_modulo t1 t2 eqs
    if r.1 then def_eq_modulo b1 b2 r.2 else (false, r.2)
  | .lam _ t1 b1, .lam _ t2 b2, eqs =>
    let r := def_eq_modulo t1 t2 eqs
    if r.1 then def_eq_modulo b1 b2 r.2 else (false, r.2)
  | t, u, eqs =>
    if termEqModuloHints t u then (true, eqs) else (false, eqs ++ [(t, u)])

/-- `TyCtxt::def_eq` (typeck/mod.rs lines 377-390): evaluate both sides,
compare with `def_eq_modulo`, and on success return the normal form of the
FIRST argument; on failure return `DefUnequal` with both normal forms and
the inequalities log. -/
def TyCtxt.def_eq (fuel : Nat) (cx : TyCtxt) (t u : Term) : TcResult :=
  match cx.eval fuel t with
  | .ok t' =>
    match cx.eval fuel u with
    | .ok u' =>
      let r := def_eq_modulo t' u' []
      if r.1 then .ok t' else .err (.defUnequal t' u' r.2)
    | r => r
  | r => r

/-- One loop of `TyCtxt::merge` (typeck/mod.rs lines 136-159): insert every
entry of `other` into `m` in order, recording a `NameExists` error whenever
`insert` reports a previous value at the key. -/
def mergeMap {β : Type} (m : List (Name × β)) : List (Name × β) → List (Name × β) × List Error
  | [] => (m, [])
  | (n, v) :: rest =>
    let p := mapInsert m n v
    let q := mergeMap p.2 rest
    (q.1, (match p.1 with
           | some _ => [Error.nameExists n]
           | none => []) ++ q.2)

/-- `TyCtxt::merge` (typeck/mod.rs lines 125-166): insert every entry of the
consumed context into `self`, one map after the other (types, functions,
axioms, definitions), batching one `NameExists` per reported collision; the
final result is `Many(batch)` when the batch is non-empty.  The entries are
inserted whether or not errors occur. -/
def TyCtxt.merge (cx other : TyCtxt) : TyCtxt × Option Error :=
  let t := mergeMap cx.types other.types
  let f := mergeMap cx.functions other.functions
  let a := mergeMap cx.axioms other.axioms
  let d := mergeMap cx.definitions other.definitions
  let errs := t.2 ++ f.2 ++ a.2 ++ d.2
  (⟨t.1, f.1, a.1, d.1⟩, if errs.length ≠ 0 then some (.many errs) else none)

/-- `TyCtxt::declare_def` (typeck/mod.rs lines 193-196): record the function
in `functions` and its `(declared type, body)` pair in `definitions`.  The
body is not checked here. -/
def TyCtxt.declare_def (cx : TyCtxt) (f : Function) : TyCtxt :=
  { cx with
    functions := (mapInsert cx.functions f.name f).2,
    definitions := (mapInsert cx.definitions f.name (f.ret_ty, f.body)).2 }

/-- The conventional name of a synthesized recursor: `⟨datatype⟩.rec`
(spec §4.D). -/
def recName : Name → Name
  | .qual cs => .qual (cs ++ ["rec"])
  | n => n

/-- Modelled from the spec: `inductive::make_recursor` lives in
`typeck/inductive.rs`, which is not among the sources under review.  Per
spec §4.D it synthesizes the eliminator and inserts the recursor's own type
into `axioms` under `⟨datatype⟩.rec`; the spec records no failure path.  The
spec fixes only the telescope order — motive, one minor premise per
constructor, scrutinee — and says the checker never inspects the premise
shapes, so this model keeps that order with each premise's type taken from
its constructor's declared type. -/
def make_recursor (cx : TyCtxt) (d : Data) : Except Error TyCtxt :=
  let motiveTy := Term.pi (.deBruijn 0 "x") d.name.to_term .type
  let codomain := Term.pi (.deBruijn 0 "x") d.name.to_term
      (.app (.var (.deBruijn (d.ctors.length + 1) "C")) (.var (.deBruijn 0 "x")))
  let recTy := Term.pi (.deBruijn 0 "C") motiveTy
      (d.ctors.foldr (fun c acc => .pi (.deBruijn 0 "p") c.2 acc) codomain)
  .ok { cx with axioms := (mapInsert cx.axioms (recName d.name) recTy).2 }

/-- `TyCtxt::declare_datatype` (typeck/mod.rs lines 175-191): record the
declaration in `types`, insert `(name, ty)` into `axioms`, insert each
constructor's `(name, type)` into `axioms` in order, then invoke recursor
synthesis.  All insertions are plain `HashMap::insert` calls whose return
value is discarded, so existing entries are overwritten silently. -/
def TyCtxt.declare_datatype (cx : TyCtxt) (d : Data) : Except Error TyCtxt :=
  let cx1 := { cx with types := (mapInsert cx.types d.name d).2 }
  let cx2 := { cx1 with axioms := (mapInsert cx1.axioms d.name d.ty).2 }
  let cx3 := { cx2 with
    axioms := d.ctors.foldl (fun m c => (mapInsert m c.1 c.2).2) cx2.axioms }
  make_recursor cx3 d

/-- `TyCtxt::lookup_global` (typeck/mod.rs lines 224-234): the declared type
of a global — `definitions[n].0` if defined, else `axioms[n]`, else
`UnknownVariable`. -/
def TyCtxt.lookup_global (cx : TyCtxt) (n : Name) : Except Error Term :=
  match mapLookup cx.definitions n with
  | none =>
    match mapLookup cx.axioms n with
    | none => .error (.unknownVariable n)
    | some t => .ok t
  | some t => .ok t.1

/-- `TyCtxt::local_with_repr` (typeck/mod.rs lines 245-255): allocate a
fresh checking local carrying the given hint and type; the monotone counter
is threaded explicitly (spec §9). -/
def local_with_repr (ctr : Nat) (r : String) (ty : Term) : Name := .lcl ctr ty r

mutual
/-- `LocalCx::type_infer_term` (typeck/mod.rs lines 427-486) with explicit
fuel and fresh-local counter (the `LocalCx` fields `locals` and `equalities`
are never read by the source's checking code, so only the counter is state).
`Literal::Int` inference and the `Recursor` catch-all are `panic!` in the
source, as is a DeBruijn or meta variable reaching inference and a binder
whose hint is not a DeBruijn name (`TyCtxt::local`, lines 236-243). -/
def type_infer_term : Nat → TyCtxt → Nat → Term → TcResult × Nat
  | 0, _, ctr, _ => (.fuelOut, ctr)
  | fuel + 1, cx, ctr, t =>
    match t with
    | .lit (.int _) => (.panic, ctr)
    | .lit .unit => (.ok (.var (.qual ["Unit"])), ctr)
    | .var nm =>
      match nm with
      | .lcl _ ty _ => (.ok ty, ctr)
      | .qual cs =>
        (match cx.lookup_global (.qual cs) with
         | .ok ty => (.ok ty, ctr)
         | .error e => (.err e, ctr))
      | _ => (.panic, ctr)
    | .app fn arg =>
      match type_infer_term fuel cx ctr fn with
      | (.ok (.pi _ domTy codTy), ctr1) =>
        (match type_check_term fuel cx ctr1 arg domTy with
         | (.ok _, ctr2) => (.ok (codTy.instantiate arg), ctr2)
         | r => r)
      | (.ok _, ctr1) => (.err (.applicationMismatch fn arg), ctr1)
      | r => r
    | .pi nm ty body =>
      (match nm with
       | .deBruijn _ r =>
         let opened := body.instantiate (local_with_repr ctr r ty).to_term
         (match type_check_term fuel cx (ctr + 1) ty .type with
          | (.ok _, ctr1) =>
            (match type_check_term fuel cx ctr1 opened .type with
             | (.ok _, ctr2) => (.ok .type, ctr2)
             | r => r)
          | r => r)
       | _ => (.panic, ctr))
    | .lam nm ty body =>
      (match nm with
       | .deBruijn _ r =>
         let l := local_with_repr ctr r ty
         let opened := body.instantiate l.to_term
         (match type_infer_term fuel cx (ctr + 1) opened with
          | (.ok bodyTy, ctr1) => (.ok (.pi nm ty (bodyTy.abstr l)), ctr1)
          | r => r)
       | _ => (.panic, ctr))
    | .type => (.ok .type, ctr)
    | .recursor _ _ _ => (.panic, ctr)

/-- `LocalCx::type_check_term` (typeck/mod.rs lines 417-425): infer the type
of `term`, then require it definitionally equal to the ascribed `ty` —
passing the ascribed type as the FIRST argument of `def_eq` — and return
`def_eq`'s result. -/
def type_check_term : Nat → TyCtxt → Nat → Term → Term → TcResult × Nat
  | 0, _, ctr, _, _ => (.fuelOut, ctr)
  | fuel + 1, cx, ctr, term, ty =>
    match type_infer_term fuel cx ctr term with
    | (.ok inferTy, ctr1) => (cx.def_eq fuel ty inferTy, ctr1)
    | r => r
end

/-- No-duplicate-keys invariant of an association list; holds for every map
obtained from a `HashMap` of the source. -/
def keysNodup {β : Type} (m : List (Name × β)) : Prop := (m.map Prod.fst).Nodup

instance {β : Type} (m : List (Name × β)) : Decidable (keysNodup m) :=
  inferInstanceAs (Decidable (m.map Prod.fst).Nodup)

/-- The `NameExists` errors produced by one `merge` loop inserting `o` into
`m`: one per entry of `o` whose key is already present in `m`. -/
def collisionErrors {β : Type} (m o : List (Name × β)) : List Error :=
  (o.filter (fun p => (mapLookup m p.1).isSome)).map (fun p => Error.nameExists p.1)

/-- First-preferring choice of two lookup results: the value of the first
map when present, otherwise the value of the second. -/
def orElseLookup {β : Type} (a b : Option β) : Option β :=
  match a with
  | some v => some v
  | none => b

/-- Identity term `λ (x : Type), x` used by concrete counterexamples. -/
def idBody : Term := .var (.deBruijn 0 "x")

/-- The lambda `λ (x : Type), x`. -/
def idLam : Term := .lam (.deBruijn 0 "x") .type idBody

/-- The β-redex `(λ (x : Type), x) Type`, whose normal form is `Type`. -/
def redex : Term := .app idLam .type

/-- Global name `f` of the counterexample definition `f := (λ x, x) Type`. -/
def fName : Name := .qual ["f"]

/-- Environment with the single definition `f : Type := (λ (x : Type), x) Type`
whose body is not in normal form. -/
def cxDelta : TyCtxt := ⟨[], [], [], [(fName, (.type, redex))]⟩

/-- Global name `x` of the duplicated function declaration. -/
def xName : Name := .qual ["x"]

/-- The function `def x : Nat := zero` of the spec's merge scenario S6. -/
def fnX : Function := ⟨xName, .var (.qual ["Nat"]), .var (.qual ["zero"])⟩

/-- An environment declaring only the function `x` (so `x` is a key of both
`functions` and `definitions`). -/
def cxA : TyCtxt := TyCtxt.empty.declare_def fnX

/-- Global name `g` of the counterexample axiom `g : alias`. -/
def gName : Name := .qual ["g"]

/-- Global name `alias`, defined as the Π-type `Type → Type`. -/
def aliasName : Name := .qual ["alias"]

/-- The Π-type `Π (x : Type), Type`. -/
def piTT : Term := .pi (.deBruijn 0 "x") .type .type

/-- Environment where the axiom `g` has declared type `Var(alias)` and the
definition `alias : Type := Π (x : Type), Type` makes that type reduce (by
one δ-step) to a Π-type without being one syntactically. -/
def cxC3 : TyCtxt := ⟨[], [], [(gName, .var aliasName)], [(aliasName, (.type, piTT))]⟩

/-- Global name of the single-constructor datatype `D`. -/
def dName : Name := .qual ["D"]

/-- Constructor name `D.zero`. -/
def dZeroName : Name := .qual ["D", "zero"]

/-- The datatype `D : Type` with single nullary constructor `D.zero`. -/
def dataD : Data := ⟨dName, .type, [(dZeroName, .var dName)]⟩

/-- Environment declaring only the datatype `D` (types map only — all the
recursor case of `eval` consults). -/
def cxD : TyCtxt := ⟨[(dName, dataD)], [], [], []⟩

/-- A recursor application of `D` whose scrutinee is a neutral checking
local, so its head matches no constructor: the stuck-scrutinee input. -/
def stuckRec : Term := .recursor dName 1 [.type, .type, .var (.lcl 0 (.var dName) "n")]

/-- Global name `Nat`. -/
def natName : Name := .qual ["Nat"]

/-- Constructor name `zero`. -/
def zeroN : Name := .qual ["zero"]

/-- Constructor name `succ`. -/
def succN : Name := .qual ["succ"]

/-- The datatype `Nat : Type` with constructors `zero : Nat` and
`succ : Nat → Nat`. -/
def dataNat : Data :=
  ⟨natName, .type, [(zeroN, .var natName), (succN, .pi (.deBruijn 0 "n") (.var natName) (.var natName))]⟩

/-- Environment declaring only the datatype `Nat`. -/
def cxNat : TyCtxt := ⟨[(natName, dataNat)], [], [], []⟩

/-- Minor premise stand-in for the `zero` case. -/
def pz : Term := .var (.qual ["pz"])

/-- Minor premise stand-in for the `succ` case. -/
def ps : Term := .var (.qual ["ps"])

/-- The constructor application `succ zero`. -/
def one : Term := .app (.var succN) (.var zeroN)

/-- Recursor argument vector `[motive, p_zero, p_succ, succ zero]` for
`Rec(Nat, 1, ...)`: offset 1 places the premise of constructor `i` at index
`i + 1` and the scrutinee last. -/
def tsC5 : List Term := [.type, pz, ps, one]

/-- The environment produced by declaring the datatype `Nat` in the empty
context (total function: the error branch is not reachable). -/
def cxNat1 : TyCtxt :=
  match TyCtxt.declare_datatype TyCtxt.empty dataNat with
  | .ok c => c
  | .error _ => TyCtxt.empty

/-- `HashMap::insert` returns exactly the previous value at the key. -/
theorem mapInsert_fst {β : Type} (m : List (Name × β)) (k : Name) (v : β) :
    (mapInsert m k v).1 = mapLookup m k := by
  induction m with
  | nil => rfl
  | cons p rest ih =>
    obtain ⟨k', v'⟩ := p
    by_cases h : k = k'
    · simp [mapInsert, mapLookup, h]
    · simp [mapInsert, mapLookup, h, ih]

/-- Lookup after insertion: the inserted key maps to the new value, every
other key is unaffected. -/
theorem mapLookup_mapInsert {β : Type} (m : List (Name × β)) (k kq : Name) (v : β) :
    mapLookup (mapInsert m k v).2 kq = if kq = k then some v else mapLookup m kq := by
  induction m with
  | nil => simp [mapInsert, mapLookup]
  | cons p rest ih =>
    obtain ⟨k', v'⟩ := p
    by_cases h : k = k'
    · subst h
      simp only [mapInsert, if_pos rfl, mapLookup]
      by_cases hq : kq = k <;> simp [hq, mapLookup]
    · simp only [mapInsert, if_neg h, mapLookup]
      by_cases hq : kq = k'
      · subst hq
        rw [if_pos rfl, if_neg (fun hh => h hh.symm)]
        simp [mapLookup]
      · simp [hq, ih]

/-- A key absent from the key list is not found. -/
theorem mapLookup_eq_none_of_not_mem {β : Type} (m : List (Name × β)) (k : Name)
    (h : k ∉ m.map Prod.fst) : mapLookup m k = none := by
  induction m with
  | nil => rfl
  | cons p rest ih =>
    simp only [List.map_cons, List.mem_cons, not_or] at h
    simp [mapLookup, h.1, ih h.2]

/-- After one `merge` loop, lookup prefers the merged-in map: incoming
entries replace existing ones at every colliding key. -/
theorem mergeMap_fst_lookup {β : Type} (o : List (Name × β)) :
    ∀ m : List (Name × β), keysNodup o → ∀ k,
      mapLookup (mergeMap m o).1 k =
        orElseLookup (mapLookup o k) (mapLookup m k) := by
  induction o with
  | nil => intro m _ k; rfl
  | cons p rest ih =>
    intro m hnd k
    obtain ⟨n, v⟩ := p
    have hp : (n :: rest.map Prod.fst).Nodup := by simpa [keysNodup] using hnd
    have hnotin : n ∉ rest.map Prod.fst := (List.nodup_cons.mp hp).1
    have hnd' : keysNodup rest := (List.nodup_cons.mp hp).2
    show mapLookup (mergeMap (mapInsert m n v).2 rest).1 k = _
    rw [ih _ hnd' k]
    by_cases hq : k = n
    · subst hq
      rw [mapLookup_eq_none_of_not_mem rest k hnotin]
      simp [mapLookup, mapLookup_mapInsert, orElseLookup]
    · simp only [mapLookup, if_neg hq]
      cases mapLookup rest k <;> simp [mapLookup_mapInsert, hq, orElseLookup]

/-- After one `merge` loop, the recorded errors are exactly one `NameExists`
per entry of the merged-in map whose key already existed. -/
theorem mergeMap_snd_eq {β : Type} (o : List (Name × β)) :
    ∀ m : List (Name × β), keysNodup o →
      (mergeMap m o).2 = collisionErrors m o := by
  induction o with
  | nil => intro m _; rfl
  | cons p rest ih =>
    intro m hnd
    obtain ⟨n, v⟩ := p
    have hp : (n :: rest.map Prod.fst).Nodup := by simpa [keysNodup] using hnd
    have hnotin : n ∉ rest.map Prod.fst := (List.nodup_cons.mp hp).1
    have hnd' : keysNodup rest := (List.nodup_cons.mp hp).2
    show ((match (mapInsert m n v).1 with
           | some _ => [Error.nameExists n]
           | none => []) ++ (mergeMap (mapInsert m n v).2 rest).2) = _
    rw [ih _ hnd', mapInsert_fst]
    have hcoll : collisionErrors (mapInsert m n v).2 rest = collisionErrors m rest := by
      unfold collisionErrors
      congr 1
      refine List.filter_congr ?_
      intro q hq
      have hne : q.1 ≠ n := by
        intro he
        exact hnotin (he ▸ List.mem_map.mpr ⟨q, hq, rfl⟩)
      rw [mapLookup_mapInsert]
      simp [hne]
    rw [hcoll]
    unfold collisionErrors
    cases hm : mapLookup m n <;> simp [List.filter_cons, hm, collisionErrors]

/-- Folding insertions whose keys avoid `k` does not change lookup at `k`. -/
theorem mapLookup_foldl_insert_not_mem {β : Type} (l : List (Name × β)) :
    ∀ (m : List (Name × β)) (k : Name), (∀ p ∈ l, p.1 ≠ k) →
      mapLookup (l.foldl (fun acc c => (mapInsert acc c.1 c.2).2) m) k = mapLookup m k := by
  induction l with
  | nil => intro m k _; rfl
  | cons p rest ih =>
    intro m k h
    rw [List.foldl_cons, ih _ _ (fun q hq => h q (List.mem_cons_of_mem _ hq)),
        mapLookup_mapInsert]
    rw [if_neg (fun hh => h p (List.mem_cons_self _ _) hh.symm)]

/-- Folding the insertions of a duplicate-free entry list stores every
entry: lookup at an entry's key returns its value. -/
theorem mapLookup_foldl_insert_mem {β : Type} (l : List (Name × β)) :
    ∀ (m : List (Name × β)) (c : Name × β), c ∈ l → (l.map Prod.fst).Nodup →
      mapLookup (l.foldl (fun acc c => (mapInsert acc c.1 c.2).2) m) c.1 = some c.2 := by
  induction l with
  | nil => intro m c hc _; cases hc
  | cons p rest ih =>
    intro m c hc hnd
    have hp : (p.1 :: rest.map Prod.fst).Nodup := by simpa using hnd
    have hnotin : p.1 ∉ rest.map Prod.fst := (List.nodup_cons.mp hp).1
    have hnd' : (rest.map Prod.fst).Nodup := (List.nodup_cons.mp hp).2
    rcases List.mem_cons.mp hc with he | hm
    · subst he
      rw [List.foldl_cons,
          mapLookup_foldl_insert_not_mem rest _ c.1
            (fun q hq hh => hnotin (hh ▸ List.mem_map.mpr ⟨q, hq, rfl⟩)),
          mapLookup_mapInsert, if_pos rfl]
    · rw [List.foldl_cons]
      exact ih _ c hm hnd'

/-- C1 (counterexample): with the definition `f := (λ (x : Type), x) Type`,
`eval(Var(f))` returns the stored body unevaluated, while `eval(body)`
normalizes it to `Type`; the two results differ, so `eval(Var(f))` does not
equal `eval(body)` as the claim states. -/
theorem c1_counterexample :
    TyCtxt.eval 5 cxDelta (.var fName) = .ok redex ∧
    TyCtxt.eval 5 cxDelta redex = .ok .type ∧
    redex ≠ Term.type := ⟨rfl, rfl, by decide⟩

/-- C1 (amended): `eval` of a qualified variable performs exactly one δ-step:
if the name is recorded in `definitions` the stored body is returned as-is
(not further evaluated), and otherwise — the name being an axiom or absent —
the variable itself is returned unchanged. -/
theorem c1_delta_returns_stored_body (fuel : Nat) (cx : TyCtxt) (cs : List String) :
    TyCtxt.eval (fuel + 1) cx (.var (.qual cs)) =
      .ok (match mapLookup cx.definitions (.qual cs) with
           | some d => d.2
           | none => Name.to_term (.qual cs)) := by
  show TcResult.ok (cx.unfold_name (.qual cs)) = _
  have hu : cx.unfold_name (.qual cs) =
      (match mapLookup cx.definitions (.qual cs) with
       | none => Name.to_term (.qual cs)
       | some d => d.2) := rfl
  rw [hu]
  cases mapLookup cx.definitions (.qual cs) <;> rfl

/-- C2 (counterexample): merging two environments that each declare the
function `x` yields `Many` with TWO `NameExists(x)` entries — one from the
`functions` map and one from the `definitions` map — not the single-element
batch the claim states. -/
theorem c2_counterexample :
    (TyCtxt.merge cxA cxA).2 = some (.many [.nameExists xName, .nameExists xName]) ∧
    [Error.nameExists xName, Error.nameExists xName].length = 2 := ⟨rfl, rfl⟩

/-- C4 (code bug, per spec §9): a recursor whose evaluated scrutinee is a
neutral local — its head matches no constructor of `D` — makes `eval` hit
the `panic!("this shouldn't happen")` site instead of returning the rebuilt
recursor term required by the claim. -/
theorem c4_stuck_scrutinee_panics :
    TyCtxt.eval 4 cxD (.var (.lcl 0 (.var dName) "n")) = .ok (.var (.lcl 0 (.var dName) "n")) ∧
    TyCtxt.eval 5 cxD stuckRec = .panic := ⟨rfl, rfl⟩

/-- C6 (code bug): every `Recursor` term reaching `type_infer_term` falls
into the `_ => panic!()` catch-all; no type is inferred from the recursor's
declared type in `axioms`, contrary to the claim and spec §4.G. -/
theorem c6_recursor_inference_panics (fuel : Nat) (cx : TyCtxt) (ctr : Nat)
    (dn : Name) (o : Nat) (ts : List Term) :
    type_infer_term (fuel + 1) cx ctr (.recursor dn o ts) = (.panic, ctr) := rfl

/-- C7 (counterexample): declaring the datatype `Nat` twice in a row
succeeds — the second declaration, whose datatype and constructor names are
all already present, does not fail with an error as the claim states; the
insertions silently overwrite. -/
theorem c7_counterexample :
    (match TyCtxt.declare_datatype TyCtxt.empty dataNat with
     | .ok c => TyCtxt.declare_datatype c dataNat
     | .error e => .error e).isOk = true := rfl

/-- C8 (counterexample): with `f := (λ (x : Type), x) Type` not in normal
form, `eval(App(λx.x, Var f))` evaluates the argument first and yields
`Type`, while `eval(body.instantiate(Var f))` yields the unevaluated stored
body of `f`; the beta equation of the claim fails for non-value arguments. -/
theorem c8_counterexample :
    TyCtxt.eval 6 cxDelta (.app idLam (.var fName)) = .ok .type ∧
    TyCtxt.eval 6 cxDelta (idBody.instantiate (.var fName)) = .ok redex ∧
    (Term.type : Term) ≠ redex := ⟨rfl, rfl, by decide⟩

/-- C8 (amended): the β-rule as implemented is call-by-value — the argument
is evaluated first and the lambda body instantiated with the evaluated
argument: `eval(App(Lambda{body=b}, a)) = eval(b.instantiate(eval(a)))`.
It coincides with `eval(b.instantiate(a))` whenever `eval(a) = a`. -/
theorem c8_beta_cbv (fuel : Nat) (cx : TyCtxt) (nm : Name) (ty b a a' : Term)
    (h : TyCtxt.eval (fuel + 1) cx a = .ok a') :
    TyCtxt.eval (fuel + 2) cx (.app (.lam nm ty b) a) =
      TyCtxt.eval (fuel + 1) cx (b.instantiate a') := by
  rw [show TyCtxt.eval (fuel + 2) cx (.app (.lam nm ty b) a) =
      (match TyCtxt.eval (fuel + 1) cx a with
       | .ok earg => TyCtxt.eval (fuel + 1) cx (b.instantiate earg)
       | r => r) from rfl, h]

/-- C8 (witness): the amended β-rule at the closed redex `(λ x, x) Type`. -/
theorem c8_beta_cbv_witness :
    TyCtxt.eval 2 TyCtxt.empty (.app idLam .type) =
      TyCtxt.eval 1 TyCtxt.empty (idBody.instantiate .type) :=
  c8_beta_cbv 0 TyCtxt.empty (.deBruijn 0 "x") .type idBody .type .type rfl

/-- C2 (amended): `merge` batches one `NameExists` per colliding
(name, map) pair across the four maps — a name shared by several maps is
reported once per map — and returns `Many(batch)` exactly when the batch is
non-empty.  In particular two environments each declaring the same function
`x` collide in `functions` and in `definitions`, so the batch is
`[NameExists(x), NameExists(x)]`. -/
theorem c2_merge_per_map_collisions (cx1 cx2 : TyCtxt)
    (h1 : keysNodup cx2.types) (h2 : keysNodup cx2.functions)
    (h3 : keysNodup cx2.axioms) (h4 : keysNodup cx2.definitions) :
    (TyCtxt.merge cx1 cx2).2 =
      (if (collisionErrors cx1.types cx2.types ++ collisionErrors cx1.functions cx2.functions ++
           collisionErrors cx1.axioms cx2.axioms ++
           collisionErrors cx1.definitions cx2.definitions).length ≠ 0
       then some (.many (collisionErrors cx1.types cx2.types ++
           collisionErrors cx1.functions cx2.functions ++
           collisionErrors cx1.axioms cx2.axioms ++
           collisionErrors cx1.definitions cx2.definitions))
       else none) := by
  have e : (TyCtxt.merge cx1 cx2).2 =
      (if ((mergeMap cx1.types cx2.types).2 ++ (mergeMap cx1.functions cx2.functions).2 ++
           (mergeMap cx1.axioms cx2.axioms).2 ++ (mergeMap cx1.definitions cx2.definitions).2).length ≠ 0
       then some (.many ((mergeMap cx1.types cx2.types).2 ++ (mergeMap cx1.functions cx2.functions).2 ++
           (mergeMap cx1.axioms cx2.axioms).2 ++ (mergeMap cx1.definitions cx2.definitions).2))
       else none) := rfl
  rw [e, mergeMap_snd_eq cx2.types cx1.types h1, mergeMap_snd_eq cx2.functions cx1.functions h2,
      mergeMap_snd_eq cx2.axioms cx1.axioms h3, mergeMap_snd_eq cx2.definitions cx1.definitions h4]

/-- C2 (witness): the amended merge law at the two concrete environments
each declaring the function `x`. -/
theorem c2_merge_per_map_collisions_witness :
    (TyCtxt.merge cxA cxA).2 =
      (if (collisionErrors cxA.types cxA.types ++ collisionErrors cxA.functions cxA.functions ++
           collisionErrors cxA.axioms cxA.axioms ++
           collisionErrors cxA.definitions cxA.definitions).length ≠ 0
       then some (.many (collisionErrors cxA.types cxA.types ++
           collisionErrors cxA.functions cxA.functions ++
           collisionErrors cxA.axioms cxA.axioms ++
           collisionErrors cxA.definitions cxA.definitions))
       else none) :=
  c2_merge_per_map_collisions cxA cxA (by decide) (by decide) (by decide) (by decide)

/-- C3 (counterexample): the axiom `g` has declared type `Var(alias)`, and
`alias` is defined as the Π-type `Π (x : Type), Type`, so the inferred type
of `g` reduces by `eval` to a Π-type; nevertheless inferring `g Type`
returns `ApplicationMismatch` because the match is syntactic — contradicting
"returns ApplicationMismatch exactly when the inferred type of f does not
reduce to a Pi type". -/
theorem c3_counterexample :
    type_infer_term 4 cxC3 0 (.var gName) = (.ok (.var aliasName), 0) ∧
    TyCtxt.eval 5 cxC3 (.var aliasName) = .ok piTT ∧
    type_infer_term 5 cxC3 0 (.app (.var gName) .type) =
      (.err (.applicationMismatch (.var gName) .type), 0) := ⟨rfl, rfl, rfl⟩

/-- C3 (amended): inference of `App(f, a)` matches the inferred type of `f`
syntactically, with no reduction: when it is literally a `Forall` the
argument is checked against the domain and `cod.instantiate(a)` returned;
for every other inferred type — even one that would reduce to a Π —
`ApplicationMismatch(fun, arg)` is returned. -/
theorem c3_app_infer_syntactic (fuel : Nat) (cx : TyCtxt) (ctr : Nat)
    (fn arg T : Term) (ctr1 : Nat)
    (h : type_infer_term fuel cx ctr fn = (.ok T, ctr1)) :
    ((∀ nm dom cod, T ≠ .pi nm dom cod) →
      type_infer_term (fuel + 1) cx ctr (.app fn arg) =
        (.err (.applicationMismatch fn arg), ctr1)) ∧
    (∀ nm dom cod, T = .pi nm dom cod →
      type_infer_term (fuel + 1) cx ctr (.app fn arg) =
        (match type_check_term fuel cx ctr1 arg dom with
         | (.ok _, c2) => (.ok (cod.instantiate arg), c2)
         | r => r)) := by
  constructor
  · intro hnp
    simp only [type_infer_term, h]
  · intro nm dom cod hT
    subst hT
    simp only [type_infer_term, h]

/-- C3 (witness): applying `Type` (whose inferred type `Type` is not a Π)
yields `ApplicationMismatch`, via the amended rule. -/
theorem c3_app_infer_syntactic_witness :
    type_infer_term 2 TyCtxt.empty 0 (.app .type .type) =
      (.err (.applicationMismatch .type .type), 0) :=
  (c3_app_infer_syntactic 1 TyCtxt.empty 0 .type .type .type 0 rfl).1
    (fun _ _ _ hh => Term.noConfusion hh)

/-- C5: the ι-rule for a constructor application with a non-empty spine —
with the datatype found, the scrutinee evaluated, constructor `i` matched
and `premise = args[i + offset]` — rebuilds the recursive invocation by
replacing the scrutinee slot (index `len - 1`) of a clone of `args` with the
first spine element, appends that invocation to the spine, and evaluates
`apply_all(premise, spine)`. -/
theorem c5_iota_recursive (fuel : Nat) (cx : TyCtxt) (dn : Name) (offset : Nat)
    (ts : List Term) (dt : Data) (scrTerm scrutinee : Term) (i : Nat)
    (premise a0 : Term) (rest : List Term)
    (hdt : mapLookup cx.types dn = some dt)
    (hlast : ts.getLast? = some scrTerm)
    (hscr : TyCtxt.eval fuel cx scrTerm = .ok scrutinee)
    (hfind : recFind scrutinee.head dt.ctors 0 = .found i)
    (hprem : ts[i + offset]? = some premise)
    (hargs : scrutinee.args = some (a0 :: rest)) :
    TyCtxt.eval (fuel + 1) cx (.recursor dn offset ts) =
      TyCtxt.eval fuel cx
        (Term.apply_all premise
          ((a0 :: rest) ++ [.recursor dn offset (ts.set (ts.length - 1) a0)])) := by
  rw [show TyCtxt.eval (fuel + 1) cx (.recursor dn offset ts) =
      (match mapLookup cx.types dn with
       | none => .panic
       | some dt =>
         match ts.getLast? with
         | none => .panic
         | some scrTerm =>
           match TyCtxt.eval fuel cx scrTerm with
           | .ok scrutinee =>
             match recFind scrutinee.head dt.ctors 0 with
             | .stuck => .panic
             | .noMatch => .panic
             | .found i =>
               match ts[i + offset]? with
               | none => .panic
               | some premise =>
                 match scrutinee.args with
                 | none => .ok premise
                 | some [] => .panic
                 | some (a0 :: rest) =>
                   TyCtxt.eval fuel cx
                     (Term.apply_all premise
                       ((a0 :: rest) ++ [.recursor dn offset (ts.set (ts.length - 1) a0)]))
           | r => r) from rfl]
  simp only [hdt, hlast, hscr, hfind, hprem, hargs]

/-- C5 (witness): the ι-rule at `Rec(Nat, 1, [motive, p_zero, p_succ,
succ zero])`, whose scrutinee head matches constructor index 1. -/
theorem c5_iota_recursive_witness :
    TyCtxt.eval 8 cxNat (.recursor natName 1 tsC5) =
      TyCtxt.eval 7 cxNat
        (Term.apply_all ps
          (([Term.var zeroN] : List Term) ++ [.recursor natName 1 (tsC5.set (tsC5.length - 1) (.var zeroN))])) :=
  c5_iota_recursive 7 cxNat natName 1 tsC5 dataNat one one 1 ps (.var zeroN) []
    rfl rfl rfl rfl rfl rfl

/-- Shape of `declare_datatype`'s successful result: it always succeeds, the
datatype is recorded in `types`, `functions` and `definitions` are untouched,
and `axioms` receives `(name, ty)`, the constructors in order, and finally
the synthesized recursor type under `⟨datatype⟩.rec`. -/
theorem declare_datatype_eq (cx : TyCtxt) (d : Data) :
    ∃ cx', TyCtxt.declare_datatype cx d = .ok cx' ∧
      cx'.types = (mapInsert cx.types d.name d).2 ∧
      cx'.functions = cx.functions ∧
      cx'.definitions = cx.definitions ∧
      ∃ rty, cx'.axioms =
        (mapInsert (d.ctors.foldl (fun m c => (mapInsert m c.1 c.2).2)
          (mapInsert cx.axioms d.name d.ty).2) (recName d.name) rty).2 :=
  ⟨_, rfl, rfl, rfl, rfl, _, rfl⟩

/-- C7 (amended): `declare_datatype` records the datatype in `types`,
inserts `(name, ty)` and every constructor into `axioms`, then invokes
recursor synthesis — and never fails: a datatype or constructor name that is
already present is silently overwritten rather than rejected. -/
theorem c7_declare_datatype_records_and_overwrites (cx : TyCtxt) (d : Data)
    (cs : List String) (hq : d.name = .qual cs)
    (hctor : ∀ c ∈ d.ctors, c.1 ≠ d.name)
    (hctorRec : ∀ c ∈ d.ctors, c.1 ≠ recName d.name)
    (hnd : (d.ctors.map Prod.fst).Nodup) :
    (TyCtxt.declare_datatype cx d).isOk = true ∧
    ∀ cx', TyCtxt.declare_datatype cx d = .ok cx' →
      mapLookup cx'.types d.name = some d ∧
      mapLookup cx'.axioms d.name = some d.ty ∧
      ∀ c ∈ d.ctors, mapLookup cx'.axioms c.1 = some c.2 := by
  have hrec : d.name ≠ recName d.name := by
    rw [hq]
    intro hcon
    simp only [recName, Name.qual.injEq] at hcon
    have := congrArg List.length hcon
    simp at this
  refine ⟨rfl, ?_⟩
  intro cx' hcx
  obtain ⟨cx'', heq, ht, _, _, rty, ha⟩ := declare_datatype_eq cx d
  rw [heq] at hcx
  injection hcx with hsame
  subst hsame
  refine ⟨?_, ?_, ?_⟩
  · rw [ht, mapLookup_mapInsert, if_pos rfl]
  · rw [ha, mapLookup_mapInsert, if_neg hrec,
        mapLookup_foldl_insert_not_mem d.ctors _ d.name hctor,
        mapLookup_mapInsert, if_pos rfl]
  · intro c hc
    rw [ha, mapLookup_mapInsert, if_neg (hctorRec c hc)]
    exact mapLookup_foldl_insert_mem d.ctors _ c hc hnd

/-- C7 (witness): declaring `Nat` in the empty environment records the
datatype in `types` and its type and constructors in `axioms`. -/
theorem c7_declare_datatype_records_and_overwrites_witness :
    mapLookup cxNat1.types natName = some dataNat ∧
    mapLookup cxNat1.axioms natName = some .type ∧
    ∀ c ∈ dataNat.ctors, mapLookup cxNat1.axioms c.1 = some c.2 :=
  (c7_declare_datatype_records_and_overwrites TyCtxt.empty dataNat ["Nat"] rfl
      (by decide) (by decide) (by decide)).2 cxNat1 rfl

/-- C9: `merge` is not atomic — whether or not it reports `Many`, every
entry of the merged-in environment has been inserted into `self`, and at
every colliding key of each of the four maps the incoming value silently
replaces the previous one: lookup in the merged context prefers the
merged-in environment. -/
theorem c9_merge_inserts_despite_errors (cx1 cx2 : TyCtxt)
    (h1 : keysNodup cx2.types) (h2 : keysNodup cx2.functions)
    (h3 : keysNodup cx2.axioms) (h4 : keysNodup cx2.definitions) (k : Name) :
    mapLookup (TyCtxt.merge cx1 cx2).1.types k =
      orElseLookup (mapLookup cx2.types k) (mapLookup cx1.types k) ∧
    mapLookup (TyCtxt.merge cx1 cx2).1.functions k =
      orElseLookup (mapLookup cx2.functions k) (mapLookup cx1.functions k) ∧
    mapLookup (TyCtxt.merge cx1 cx2).1.axioms k =
      orElseLookup (mapLookup cx2.axioms k) (mapLookup cx1.axioms k) ∧
    mapLookup (TyCtxt.merge cx1 cx2).1.definitions k =
      orElseLookup (mapLookup cx2.definitions k) (mapLookup cx1.definitions k) := by
  refine ⟨?_, ?_, ?_, ?_⟩
  · rw [show (TyCtxt.merge cx1 cx2).1.types = (mergeMap cx1.types cx2.types).1 from rfl]
    exact mergeMap_fst_lookup cx2.types cx1.types h1 k
  · rw [show (TyCtxt.merge cx1 cx2).1.functions = (mergeMap cx1.functions cx2.functions).1 from rfl]
    exact mergeMap_fst_lookup cx2.functions cx1.functions h2 k
  · rw [show (TyCtxt.merge cx1 cx2).1.axioms = (mergeMap cx1.axioms cx2.axioms).1 from rfl]
    exact mergeMap_fst_lookup cx2.axioms cx1.axioms h3 k
  · rw [show (TyCtxt.merge cx1 cx2).1.definitions = (mergeMap cx1.definitions cx2.definitions).1 from rfl]
    exact mergeMap_fst_lookup cx2.definitions cx1.definitions h4 k

/-- C9 (witness): merging the environment declaring `x` with itself returns
`Many` and still leaves `x` present in `functions` and `definitions`. -/
theorem c9_merge_inserts_despite_errors_witness :
    mapLookup (TyCtxt.merge cxA cxA).1.types xName =
      orElseLookup (mapLookup cxA.types xName) (mapLookup cxA.types xName) ∧
    mapLookup (TyCtxt.merge cxA cxA).1.functions xName =
      orElseLookup (mapLookup cxA.functions xName) (mapLookup cxA.functions xName) ∧
    mapLookup (TyCtxt.merge cxA cxA).1.axioms xName =
      orElseLookup (mapLookup cxA.axioms xName) (mapLookup cxA.axioms xName) ∧
    mapLookup (TyCtxt.merge cxA cxA).1.definitions xName =
      orElseLookup (mapLookup cxA.definitions xName) (mapLookup cxA.definitions xName) :=
  c9_merge_inserts_despite_errors cxA cxA (by decide) (by decide) (by decide)
    (by decide) xName

/-- C10: when `type_check_term(e, T)` succeeds, the returned term is the
normal form of the ascribed type `T` — the `eval` of the first argument
passed to `def_eq` — not the normal form of `e` or of `e`'s inferred type. -/
theorem c10_check_returns_ascribed_normal_form (fuel : Nat) (cx : TyCtxt)
    (ctr : Nat) (e T r : Term) (ctr' : Nat)
    (h : type_check_term (fuel + 1) cx ctr e T = (.ok r, ctr')) :
    TyCtxt.eval fuel cx T = .ok r := by
  rcases hi : type_infer_term fuel cx ctr e with ⟨res, c1⟩
  simp only [type_check_term, hi] at h
  cases res with
  | ok inferTy =>
    replace h : (TyCtxt.def_eq fuel cx T inferTy, c1) = (.ok r, ctr') := h
    injection h with h1 h2
    cases het : TyCtxt.eval fuel cx T with
    | ok t' =>
      cases heu : TyCtxt.eval fuel cx inferTy with
      | ok u' =>
        simp only [TyCtxt.def_eq, het, heu] at h1
        split at h1
        · injection h1 with h3
          rw [h3]
        · simp at h1
      | err e' => simp only [TyCtxt.def_eq, het, heu] at h1; simp at h1
      | panic => simp only [TyCtxt.def_eq, het, heu] at h1; simp at h1
      | fuelOut => simp only [TyCtxt.def_eq, het, heu] at h1; simp at h1
    | err e' => simp only [TyCtxt.def_eq, het] at h1; simp at h1
    | panic => simp only [TyCtxt.def_eq, het] at h1; simp at h1
    | fuelOut => simp only [TyCtxt.def_eq, het] at h1; simp at h1
  | err e' => replace h : ((TcResult.err e', c1) : TcResult × Nat) = (.ok r, ctr') := h; simp at h
  | panic => replace h : ((TcResult.panic, c1) : TcResult × Nat) = (.ok r, ctr') := h; simp at h
  | fuelOut => replace h : ((TcResult.fuelOut, c1) : TcResult × Nat) = (.ok r, ctr') := h; simp at h

/-- C10 (witness): checking `Type : Type` succeeds and returns the normal
form of the ascribed type. -/
theorem c10_check_returns_ascribed_normal_form_witness :
    TyCtxt.eval 2 cxNat Term.type = .ok .type :=
  c10_check_returns_ascribed_normal_form 2 cxNat 0 .type .type .type 0 rfl

end Hubris
